import Mathlib

/-!
Verification of the StarPrntEncoder command encoder.

The definitions below are a shallow embedding of the encoder found in
src/star-prnt-encoder.js (the current source tree) together with the
width and height operations of the bundled build in
dist/star-prnt-encoder.cjs, which is the only code in the repository
that implements them.  External collaborators (the iconv-lite character
encoder and the linewrap module) are modelled by explicit finite tables
and functions restricted to the behaviour this development relies on.
-/

namespace StarPrnt

/-- A JavaScript value as it occurs as an argument of the encoder methods:
a number (modelled as a rational, which is exact for every value reachable
here), a string, the undefined value, or a boolean. -/
inductive JSVal where
  | num (q : ℚ)
  | str (s : String)
  | undef
  | bool (b : Bool)
deriving DecidableEq, Repr

/-- JavaScript truthiness for the modelled values. -/
def truthy : JSVal → Bool
  | .num q => q != 0
  | .str s => s ≠ ""
  | .undef => false
  | .bool b => b

/-- An element of the internal command buffer: the source pushes either
plain numbers, byte sequences (Buffer or Uint8Array or plain arrays), or
whatever value an argument happened to be. -/
inductive Item where
  | val (v : JSVal)
  | bytes (bs : List ℕ)
deriving DecidableEq, Repr

/-- Shorthand for a numeric buffer item. -/
def jn (q : ℚ) : Item := Item.val (JSVal.num q)

/-- Truncation toward zero of a rational, as JavaScript ToIntegerOrInfinity
performs on a number (for the finite values representable here). -/
def ratTrunc (q : ℚ) : ℤ := if 0 ≤ q then ⌊q⌋ else ⌈q⌉

/-- Conversion of a number to a byte on storage into a Uint8Array
(ECMAScript ToUint8: truncate toward zero, then reduce modulo 2^8). -/
def jsToUint8 (q : ℚ) : ℕ := ((ratTrunc q) % 256).toNat

/-- Conversion applied to a character when a string ends up as a source of
a Uint8Array.set call: every element is converted with ToNumber, so digit
characters yield their value and all other characters yield NaN, stored
as 0 (whitespace also converts to 0). -/
def charToUint8 (c : Char) : ℕ := if c.isDigit then c.toNat - 48 else 0

/-- The bytes a single buffer item contributes to the output of encode.
Numbers are stored with ToUint8; byte sequences are copied elementwise
(plain arrays go through ToUint8 as well, which is reduction modulo 256
for the natural numbers modelled here); strings contribute their ToNumber
converted characters.  An undefined or boolean item has no length
property, which derails the length computation of encode; that failure
path is modelled as none. -/
def itemBytes : Item → Option (List ℕ)
  | .val (.num q) => some [jsToUint8 q]
  | .val (.str s) => some (s.data.map charToUint8)
  | .val .undef => none
  | .val (.bool _) => none
  | .bytes bs => some (bs.map (· % 256))

/-- Flattening of the buffer performed by encode: the length pass visits
every item (failing on an item without a usable length), then all bytes
are concatenated in order. -/
def encodeBytes : List Item → Option (List ℕ)
  | [] => some []
  | i :: is => (itemBytes i).bind (fun b => (encodeBytes is).map (fun bs => b ++ bs))

/-- The mutable state of one encoder instance: the command buffer, the
current codepage, and the bold and underline style state (the source can
store an arbitrary value there, so the fields hold a JSVal). -/
structure State where
  buffer : List Item
  codepage : String
  bold : JSVal
  underline : JSVal
deriving DecidableEq, Repr

/-- The state produced by the constructor and by the internal reset. -/
def initialState : State :=
  { buffer := [], codepage := "ascii",
    bold := JSVal.bool false, underline := JSVal.bool false }

/-- The internal queue helper: push every element of the argument onto the
buffer. -/
def queue (st : State) (items : List Item) : State :=
  { st with buffer := st.buffer ++ items }

/-- Association list lookup with decidable key equality (the encoder only
uses small literal dictionaries). -/
def lookupA {α β : Type} [DecidableEq α] : List (α × β) → α → Option β
  | [], _ => none
  | (k, v) :: r, a => if a = k then some v else lookupA r a

/-! Model of the external iconv-lite character encoder. -/

/-- Canonicalization iconv-lite applies before resolving an encoding name:
lower-case the name and strip every character outside 0-9 and a-z. -/
def canonicalize (s : String) : String :=
  String.mk ((s.data.map Char.toLower).filter (fun c => c.isLower || c.isDigit))

/-- Model of the raw iconv-lite encodings table, restricted to the names
this development touches.  An entry maps a key either to a codec (none)
or to an alias naming another key (some target).  The table deliberately
has no entry named auto: iconv-lite has no such encoding. -/
def iconvTable : List (String × Option String) :=
  [("ascii", none), ("utf8", none), ("iso88591", none),
   ("cp437", none), ("cp858", none), ("cp852", none), ("cp860", none),
   ("cp861", none), ("cp863", none), ("cp865", none), ("cp866", none),
   ("cp855", none), ("cp857", none), ("cp862", none), ("cp864", none),
   ("cp737", none), ("cp869", none),
   ("windows874", none), ("windows1252", none),
   ("windows1250", none), ("windows1251", none),
   ("cp874", some "windows874"), ("win1252", some "windows1252"),
   ("win1250", some "windows1250"), ("win1251", some "windows1251")]

/-- Raw key lookup in the iconv-lite encodings table, as the property test
in the source performs (no canonicalization). -/
def iconvRawLookup (name : String) : Option (Option String) :=
  lookupA iconvTable name

/-- Model of iconv.encodingExists: canonicalize the name and test whether
the table resolves it. -/
def encodingExists (name : String) : Bool :=
  (iconvRawLookup (canonicalize name)).isSome

/-- Model of the cp437 codec of iconv-lite above the ASCII range,
restricted to the accented-letter region used in this development;
characters outside the modelled set encode as the substitute byte. -/
def cp437High : List (Char × ℕ) :=
  [('Ç', 0x80), ('ü', 0x81), ('é', 0x82), ('â', 0x83), ('ä', 0x84),
   ('à', 0x85), ('å', 0x86), ('ç', 0x87), ('ê', 0x88), ('ë', 0x89),
   ('è', 0x8a), ('ï', 0x8b), ('î', 0x8c), ('ì', 0x8d), ('Ä', 0x8e),
   ('Å', 0x8f), ('É', 0x90), ('æ', 0x91), ('Æ', 0x92), ('ô', 0x93),
   ('ö', 0x94), ('ò', 0x95), ('û', 0x96), ('ù', 0x97), ('ÿ', 0x98),
   ('Ö', 0x99), ('Ü', 0x9a), ('¢', 0x9b), ('£', 0x9c), ('¥', 0x9d),
   ('á', 0xa0), ('í', 0xa1), ('ó', 0xa2), ('ú', 0xa3), ('ñ', 0xa4),
   ('Ñ', 0xa5)]

/-- Model of the iconv-lite single-character encoding for the codepages
this development uses.  Unencodable characters are substituted by the
question-mark byte 0x3f, as iconv-lite does; codepages other than ascii,
iso88591, cp437 and windows1252 are modelled as ASCII plus substitution,
which is all the claims below depend on. -/
def encodeChar (cp : String) (c : Char) : ℕ :=
  if cp = "iso88591" then
    (if c.toNat ≤ 0xff then c.toNat else 0x3f)
  else if cp = "cp437" then
    (if c.toNat ≤ 0x7f then c.toNat else (lookupA cp437High c).getD 0x3f)
  else if cp = "windows1252" then
    (if c.toNat ≤ 0x7f || (0xa0 ≤ c.toNat && c.toNat ≤ 0xff) then c.toNat else 0x3f)
  else
    (if c.toNat ≤ 0x7f then c.toNat else 0x3f)

/-- Model of iconv.encode for the single-byte codepages in use: one byte
per character of the source string. -/
def iconvEncode (cp : String) (s : String) : List ℕ :=
  s.data.map (encodeChar cp)

/-! The commands of the source encoder. -/

/-- The printer codepage dictionary of the codepage method
(src/star-prnt-encoder.js, lines 77 to 96). -/
def printerCodepages : List (String × ℕ) :=
  [("cp437", 0x01), ("cp858", 0x04), ("cp852", 0x05), ("cp860", 0x06),
   ("cp861", 0x07), ("cp863", 0x08), ("cp865", 0x09), ("cp866", 0x0a),
   ("cp855", 0x0b), ("cp857", 0x0c), ("cp862", 0x0d), ("cp864", 0x0e),
   ("cp737", 0x0f), ("cp869", 0x11), ("windows874", 0x14),
   ("windows1252", 0x20), ("windows1250", 0x21), ("windows1251", 0x22)]

/-- The codepage command: reject names iconv-lite does not recognize
(either the existence test or the raw table lookup fails), resolve a
string-valued table entry as an alias, then require an entry in the
printer dictionary; on success record the codepage and emit the
four-byte select sequence. -/
def codepage (st : State) (value : String) : Except (String × State) State :=
  if encodingExists value then
    match iconvRawLookup value with
    | none => .error ("Unknown codepage", st)
    | some entry =>
      let cp := match entry with
        | some target => target
        | none => value
      match lookupA printerCodepages cp with
      | some id =>
        .ok { st with codepage := cp,
                      buffer := st.buffer ++ [jn 0x1b, jn 0x1d, jn 0x74, jn id] }
      | none => .error ("Codepage not supported by printer", st)
  else
    .error ("Unknown codepage", st)

/-- The combined recognition test the codepage command applies on behalf
of the character encoder: the canonicalizing existence test and the raw
table membership test must both succeed. -/
def iconvRecognized (name : String) : Bool :=
  encodingExists name && (iconvRawLookup name).isSome

/-- The name the codepage command actually looks up in the printer
dictionary: a string-valued iconv table entry is followed as an alias,
anything else leaves the name unchanged. -/
def resolveAlias (name : String) : String :=
  match iconvRawLookup name with
  | some (some target) => target
  | _ => name

/-- Model of the external linewrap collaborator: greedy reflow of the
space-separated words of the input at the given width, joining lines with
a carriage-return line-feed pair.  No claim below depends on the details
of this function, only on the text and line commands sharing it. -/
def linewrapFn (w : ℕ) (s : String) : String :=
  match s.splitOn " " with
  | [] => ""
  | x :: xs =>
    let step := fun (acc : String × String) (word : String) =>
      if acc.2.length + 1 + word.length ≤ w then
        (acc.1, acc.2 ++ " " ++ word)
      else
        (acc.1 ++ acc.2 ++ "\r\n", word)
    let r := xs.foldl step ("", x)
    r.1 ++ r.2

/-- The wrap argument of text and line: the source tests it for
truthiness, so an absent argument and the number 0 both skip wrapping. -/
def applyWrap (wrap : Option ℕ) (s : String) : String :=
  match wrap with
  | some n => if n = 0 then s else linewrapFn n s
  | none => s

/-- The text command: optionally wrap, encode with the current codepage,
and queue the resulting byte sequence as one item. -/
def text (st : State) (value : String) (wrap : Option ℕ) : State :=
  queue st [Item.bytes (iconvEncode st.codepage (applyWrap wrap value))]

/-- The newline command: queue the two-byte line terminator. -/
def newline (st : State) : State :=
  queue st [jn 0x0a, jn 0x0d]

/-- The line command: text followed by newline. -/
def line (st : State) (value : String) (wrap : Option ℕ) : State :=
  newline (text st value wrap)

/-- The bold command: an absent argument toggles the current truthiness,
the (arbitrary) value is stored in the style state, and the on or off
control pair is queued according to the truthiness of the value. -/
def bold (st : State) (value : JSVal) : State :=
  let value := if value = JSVal.undef then JSVal.bool (!truthy st.bold) else value
  let st := { st with bold := value }
  if truthy value then
    queue st [jn 0x1b, jn 0x45]
  else
    queue st [jn 0x1b, jn 0x46]

/-- The symbology dictionary of the barcode command (fourteen entries). -/
def symbologies : List (String × ℕ) :=
  [("upce", 0x00), ("upca", 0x01), ("ean8", 0x02), ("ean13", 0x03),
   ("code39", 0x04), ("itf", 0x05), ("code128", 0x06), ("code93", 0x07),
   ("nw-7", 0x08), ("gs1-128", 0x09), ("gs1-databar-omni", 0x0a),
   ("gs1-databar-truncated", 0x0b), ("gs1-databar-limited", 0x0c),
   ("gs1-databar-expanded", 0x0d)]

/-- The barcode command: reject an unknown symbology, otherwise queue the
header, the symbology id, the fixed sub-parameters, the height argument
verbatim, the ASCII bytes of the value and the terminator byte.  The
height argument is never validated. -/
def barcode (st : State) (value : String) (symbology : String) (height : JSVal) :
    Except (String × State) State :=
  match lookupA symbologies symbology with
  | some id =>
    .ok (queue st [jn 0x1b, jn 0x62, jn id, jn 0x01, jn 0x03, Item.val height,
                   Item.bytes (iconvEncode "ascii" value), jn 0x1e])
  | none => .error ("Symbology not supported by printer", st)

/-- The model dictionary of the qrcode command, with the property-key
coercion JavaScript applies when testing membership of the argument. -/
def modelByte : JSVal → Option ℕ
  | .num q => if q = 1 then some 0x01 else if q = 2 then some 0x02 else none
  | .str s => if s = "1" then some 0x01 else if s = "2" then some 0x02 else none
  | _ => none

/-- The error-level dictionary of the qrcode command. -/
def elByte : JSVal → Option ℕ
  | .str s =>
    if s = "l" then some 0x00
    else if s = "m" then some 0x01
    else if s = "q" then some 0x02
    else if s = "h" then some 0x03
    else none
  | _ => none

/-- The model-select sequence of the qrcode command. -/
def modelSel (mb : ℕ) : List Item :=
  [jn 0x1b, jn 0x1d, jn 0x79, jn 0x53, jn 0x30, jn mb]

/-- The size-select sequence of the qrcode command. -/
def sizeSel (q : ℚ) : List Item :=
  [jn 0x1b, jn 0x1d, jn 0x79, jn 0x53, jn 0x32, jn q]

/-- The error-level-select sequence of the qrcode command. -/
def elSel (eb : ℕ) : List Item :=
  [jn 0x1b, jn 0x1d, jn 0x79, jn 0x53, jn 0x31, jn eb]

/-- The byte length of the iso88591 encoding of the qrcode payload. -/
def qrDataLen (value : String) : ℕ := (iconvEncode "iso88591" value).length

/-- The qrcode command: queue the forced newline byte, default and
validate the model, the size and the error level in that order (each
validation failure throws with everything queued so far still in the
buffer), then queue the data block.  The length of the data is split with
the JavaScript expressions length % 0xff and length / 0xff, that is
modulo 255 and exact division by 255; the division result is a
non-integer number that only becomes a byte through ToUint8 at encode
time.  Finally the print-trigger sequence is queued. -/
def qrcode (st : State) (value : String) (model size errorlevel : JSVal) :
    Except (String × State) State :=
  let st := queue st [jn 0x0a]
  let model := if model = JSVal.undef then JSVal.num 2 else model
  match modelByte model with
  | none => .error ("Model must be 1 or 2", st)
  | some mb =>
    let st := queue st (modelSel mb)
    let size := if size = JSVal.undef then JSVal.num 6 else size
    match size with
    | JSVal.num q =>
      if q < 1 ∨ 8 < q then .error ("Size must be between 1 and 8", st)
      else
        let st := queue st (sizeSel q)
        let errorlevel := if errorlevel = JSVal.undef then JSVal.str "m" else errorlevel
        match elByte errorlevel with
        | none => .error ("Error level must be l, m, q or h", st)
        | some eb =>
          let st := queue st (elSel eb)
          let bs := iconvEncode "iso88591" value
          let len := bs.length
          let st := queue st [jn 0x1b, jn 0x1d, jn 0x79, jn 0x44, jn 0x31, jn 0x00,
                              jn ((len % 255 : ℕ) : ℚ), jn ((len : ℚ) / 255),
                              Item.bytes bs]
          .ok (queue st [jn 0x1b, jn 0x1d, jn 0x79, jn 0x50])
    | _ => .error ("Size must be a number", st)

/-- The raw command: queue the given items verbatim. -/
def raw (st : State) (data : List Item) : State := queue st data

/-- The encode command: flatten the buffer into a byte sequence (failing
if an item has no usable length, in which case the state is left as it
was) and reset the instance to its initial state. -/
def encode (st : State) : Except (String × State) (List ℕ × State) :=
  match encodeBytes st.buffer with
  | some out => .ok (out, initialState)
  | none => .error ("TypeError", st)

/-! Embedding of the width and height commands of the bundled build
(dist/star-prnt-encoder.cjs), the only code in the repository that
implements them; only the state these two commands touch is carried. -/

/-- The slice of the bundled-build encoder state the width and height
commands read and write: the pending fragment queue and the width and
height multipliers of the style state (both 1 after reset). -/
structure DistState where
  queued : List Item
  width : ℚ
  height : ℚ
deriving DecidableEq, Repr

/-- The width and height style state after the bundled-build reset. -/
def initialDistState : DistState := { queued := [], width := 1, height := 1 }

/-- The width command of the bundled build: an absent argument defaults
to 1, a non-number throws, a number below 1 or above 6 throws, and
otherwise the width multiplier is stored and the combined size-select
sequence is queued from both current multipliers. -/
def distWidth (st : DistState) (value : JSVal) : Except (String × DistState) DistState :=
  let value := if value = JSVal.undef then JSVal.num 1 else value
  match value with
  | JSVal.num q =>
    if q < 1 ∨ 6 < q then .error ("Width must be between 1 and 6", st)
    else
      .ok { st with width := q,
                    queued := st.queued ++ [jn 0x1b, jn 0x69, jn (st.height - 1), jn (q - 1)] }
  | _ => .error ("Width must be a number", st)

/-- The height command of the bundled build, symmetric to the width
command. -/
def distHeight (st : DistState) (value : JSVal) : Except (String × DistState) DistState :=
  let value := if value = JSVal.undef then JSVal.num 1 else value
  match value with
  | JSVal.num q =>
    if q < 1 ∨ 6 < q then .error ("Height must be between 1 and 6", st)
    else
      .ok { st with height := q,
                    queued := st.queued ++ [jn 0x1b, jn 0x69, jn (q - 1), jn (st.width - 1)] }
  | _ => .error ("Height must be a number", st)

/-! Helper lemmas. -/

lemma jsToUint8_natCast (n : ℕ) : jsToUint8 (n : ℚ) = n % 256 := by
  unfold jsToUint8 ratTrunc
  rw [if_pos (by positivity), Int.floor_natCast]
  omega

lemma jsToUint8_div255 (n : ℕ) : jsToUint8 ((n : ℚ) / 255) = (n / 255) % 256 := by
  unfold jsToUint8 ratTrunc
  rw [if_pos (by positivity),
      show ((255 : ℚ)) = ((255 : ℕ) : ℚ) by norm_num,
      Rat.floor_natCast_div_natCast]
  omega

lemma truthy_bool (b : Bool) : truthy (JSVal.bool b) = b := rfl

lemma encodeBytes_append (l₁ l₂ : List Item) :
    encodeBytes (l₁ ++ l₂)
      = (encodeBytes l₁).bind (fun a => (encodeBytes l₂).map (fun b => a ++ b)) := by
  induction l₁ with
  | nil => cases h : encodeBytes l₂ <;> simp [encodeBytes, h]
  | cons i is ih =>
    show (itemBytes i).bind (fun b => (encodeBytes (is ++ l₂)).map (fun bs => b ++ bs)) = _
    rw [ih]
    cases h0 : itemBytes i <;> cases h1 : encodeBytes is <;> cases h2 : encodeBytes l₂ <;>
      simp [encodeBytes, h0, h1, h2]

lemma lookupA_getD_lt : ∀ (l : List (Char × ℕ)), (∀ p ∈ l, p.2 < 256) →
    ∀ (c : Char) (d : ℕ), d < 256 → (lookupA l c).getD d < 256
  | [], _, c, d, hd => by simpa [lookupA]
  | (k, v) :: r, hl, c, d, hd => by
    simp only [lookupA]
    split
    · simpa using hl (k, v) (by simp)
    · exact lookupA_getD_lt r (fun p hp => hl p (List.mem_cons_of_mem _ hp)) c d hd

lemma encodeChar_lt (cp : String) (c : Char) : encodeChar cp c < 256 := by
  have htable : ∀ p ∈ cp437High, p.2 < 256 := by decide
  unfold encodeChar
  split_ifs <;>
    first
      | exact lookupA_getD_lt cp437High htable c 0x3f (by norm_num)
      | omega
      | (simp_all only [Bool.or_eq_true, Bool.and_eq_true, decide_eq_true_eq]; omega)

lemma iconvEncode_lt (cp : String) (s : String) : ∀ n ∈ iconvEncode cp s, n < 256 := by
  intro n hn
  rcases List.mem_map.mp hn with ⟨c, _, hc⟩
  exact hc ▸ encodeChar_lt cp c

lemma map_mod256 {l : List ℕ} (h : ∀ n ∈ l, n < 256) : l.map (· % 256) = l := by
  induction l with
  | nil => rfl
  | cons a r ih =>
    have ha : a < 256 := h a (by simp)
    simp [Nat.mod_eq_of_lt ha, ih (fun n hn => h n (List.mem_cons_of_mem _ hn))]

lemma itemBytes_iconv (cp : String) (s : String) :
    itemBytes (Item.bytes (iconvEncode cp s)) = some (iconvEncode cp s) := by
  simp [itemBytes, map_mod256 (iconvEncode_lt cp s)]

lemma itemBytes_jn_nat (n : ℕ) : itemBytes (jn (n : ℚ)) = some [n % 256] := by
  simp [itemBytes, jn, jsToUint8_natCast]

lemma encodeBytes_byteList : ∀ (ds : List ℕ), (∀ n ∈ ds, n < 256) →
    encodeBytes (ds.map (fun n : ℕ => jn (n : ℚ))) = some ds
  | [], _ => rfl
  | d :: r, h => by
    have hd : d < 256 := h d (by simp)
    have ih := encodeBytes_byteList r (fun n hn => h n (List.mem_cons_of_mem _ hn))
    rw [List.map_cons]
    simp only [encodeBytes]
    rw [ih, itemBytes_jn_nat d, Nat.mod_eq_of_lt hd]
    rfl

/-! Theorems for the claims. -/

/-- C5: on a context with bold disabled, bold(true).text(s).bold(false)
wraps the encoded bytes of s with the bold-on pair 0x1b 0x45 before and
the bold-off pair 0x1b 0x46 after, and the no-argument toggling chain
bold().text(s).bold() produces the identical state and output. -/
theorem c5_bold_wrap (st : State) (s : String) (hb : truthy st.bold = false) :
    bold (text (bold st (JSVal.bool true)) s none) (JSVal.bool false)
      = bold (text (bold st JSVal.undef) s none) JSVal.undef ∧
    (bold (text (bold st (JSVal.bool true)) s none) (JSVal.bool false)).buffer
      = st.buffer ++
        [jn 0x1b, jn 0x45, Item.bytes (iconvEncode st.codepage s), jn 0x1b, jn 0x46] ∧
    (∀ pre, encodeBytes st.buffer = some pre →
       encodeBytes (bold (text (bold st (JSVal.bool true)) s none) (JSVal.bool false)).buffer
         = some (pre ++ [0x1b, 0x45] ++ iconvEncode st.codepage s ++ [0x1b, 0x46])) := by
  have h1 : bold st (JSVal.bool true)
      = queue { st with bold := JSVal.bool true } [jn 0x1b, jn 0x45] := by
    simp [bold, truthy_bool]
  have h2 : bold st JSVal.undef
      = queue { st with bold := JSVal.bool true } [jn 0x1b, jn 0x45] := by
    simp [bold, hb, truthy_bool]
  have hbuf :
      (bold (text (bold st (JSVal.bool true)) s none) (JSVal.bool false)).buffer
        = st.buffer ++
          [jn 0x1b, jn 0x45, Item.bytes (iconvEncode st.codepage s), jn 0x1b, jn 0x46] := by
    simp [h1, bold, text, queue, truthy_bool, applyWrap]
  refine ⟨?_, hbuf, ?_⟩
  · rw [h1, h2]
    simp [bold, text, queue, truthy_bool, applyWrap]
  · intro pre hpre
    rw [hbuf, encodeBytes_append, hpre]
    have e1b : itemBytes (jn 0x1b) = some [0x1b] := by decide
    have e45 : itemBytes (jn 0x45) = some [0x45] := by decide
    have e46 : itemBytes (jn 0x46) = some [0x46] := by decide
    simp [encodeBytes, e1b, e45, e46, itemBytes_iconv st.codepage s]

/-- C5 witness: the theorem applied to the initial state and the string
hello. -/
theorem c5_bold_wrap_witness :
    encodeBytes (bold (text (bold initialState (JSVal.bool true)) "hello" none)
        (JSVal.bool false)).buffer
      = some ([] ++ [0x1b, 0x45] ++ iconvEncode initialState.codepage "hello" ++ [0x1b, 0x46]) :=
  (c5_bold_wrap initialState "hello" rfl).2.2 [] rfl

/-- C6: line equals text followed by newline, the queued output being the
encoded bytes of the (optionally wrapped) string followed by the two-byte
line terminator 0x0a 0x0d. -/
theorem c6_line_text_newline (st : State) (s : String) (wrap : Option ℕ) :
    line st s wrap = newline (text st s wrap) ∧
    (line st s wrap).buffer = st.buffer ++
      [Item.bytes (iconvEncode st.codepage (applyWrap wrap s)), jn 0x0a, jn 0x0d] ∧
    (line st s none).buffer = st.buffer ++
      [Item.bytes (iconvEncode st.codepage s), jn 0x0a, jn 0x0d] ∧
    (∀ pre, encodeBytes st.buffer = some pre →
       encodeBytes (line st s wrap).buffer
         = some (pre ++ iconvEncode st.codepage (applyWrap wrap s) ++ [0x0a, 0x0d])) := by
  refine ⟨rfl, ?_, ?_, ?_⟩
  · simp [line, newline, text, queue]
  · simp [line, newline, text, queue, applyWrap]
  · intro pre hpre
    have hbuf : (line st s wrap).buffer = st.buffer ++
        [Item.bytes (iconvEncode st.codepage (applyWrap wrap s)), jn 0x0a, jn 0x0d] := by
      simp [line, newline, text, queue]
    rw [hbuf, encodeBytes_append, hpre]
    have e0a : itemBytes (jn 0x0a) = some [0x0a] := by decide
    have e0d : itemBytes (jn 0x0d) = some [0x0d] := by decide
    simp [encodeBytes, e0a, e0d, itemBytes_iconv st.codepage (applyWrap wrap s)]

/-- C6 witness: the theorem applied to the initial state, the string hi
and an absent wrap argument. -/
theorem c6_line_text_newline_witness :
    encodeBytes (line initialState "hi" none).buffer
      = some ([] ++ iconvEncode initialState.codepage (applyWrap none "hi") ++ [0x0a, 0x0d]) :=
  (c6_line_text_newline initialState "hi" none).2.2.2 [] rfl

/-- C7: encode resets the context to the initial state (empty buffer,
default codepage, bold and underline cleared), so an immediately
following encode returns the empty byte sequence. -/
theorem c7_encode_resets (st : State) (out : List ℕ) (st₂ : State)
    (h : encode st = .ok (out, st₂)) :
    st₂ = initialState ∧ st₂.buffer = [] ∧ st₂.codepage = "ascii" ∧
    st₂.bold = JSVal.bool false ∧ st₂.underline = JSVal.bool false ∧
    encode st₂ = .ok ([], initialState) := by
  unfold encode at h
  cases hb : encodeBytes st.buffer with
  | none => rw [hb] at h; cases h
  | some bs =>
    rw [hb] at h
    have h2 : st₂ = initialState := by
      injection h with h; injection h with _ h2; exact h2.symm
    subst h2
    exact ⟨rfl, rfl, rfl, rfl, rfl, rfl⟩

/-- C7 witness: the theorem applied to the initial state itself. -/
theorem c7_encode_resets_witness :
    initialState = initialState ∧ initialState.buffer = [] ∧
    initialState.codepage = "ascii" ∧ initialState.bold = JSVal.bool false ∧
    initialState.underline = JSVal.bool false ∧
    encode initialState = .ok ([], initialState) :=
  c7_encode_resets initialState [] initialState rfl

/-- C8: barcode succeeds exactly when the symbology is one of the
fourteen dictionary entries; the height argument is never validated and
is queued verbatim as the sixth element of the emitted command, whatever
value it is. -/
theorem c8_barcode_height_unvalidated (st : State) (value symbology : String) (hv : JSVal) :
    ((∃ st', barcode st value symbology hv = .ok st')
        ↔ (lookupA symbologies symbology).isSome) ∧
    (∀ id, lookupA symbologies symbology = some id →
       barcode st value symbology hv = .ok { st with buffer := st.buffer ++
         [jn 0x1b, jn 0x62, jn id, jn 0x01, jn 0x03, Item.val hv,
          Item.bytes (iconvEncode "ascii" value), jn 0x1e] }) ∧
    (lookupA symbologies symbology = none →
       barcode st value symbology hv = .error ("Symbology not supported by printer", st)) := by
  refine ⟨?_, ?_, ?_⟩
  · cases hl : lookupA symbologies symbology <;> simp [barcode, hl, queue]
  · intro id hl
    simp [barcode, hl, queue]
  · intro hl
    simp [barcode, hl]

/-- C8 witness: the theorem applied to a string-valued height, which is
accepted and queued verbatim. -/
theorem c8_barcode_height_unvalidated_witness :
    barcode initialState "A" "ean13" (JSVal.str "tall")
      = .ok { initialState with buffer := initialState.buffer ++
          [jn 0x1b, jn 0x62, jn 3, jn 0x01, jn 0x03, Item.val (JSVal.str "tall"),
           Item.bytes (iconvEncode "ascii" "A"), jn 0x1e] } :=
  (c8_barcode_height_unvalidated initialState "A" "ean13" (JSVal.str "tall")).2.1 3 (by decide)

/-- C10: raw appends the given items to the buffer unchanged and without
validation; on a fresh context, raw followed by encode returns exactly
the given bytes in order. -/
theorem c10_raw_passthrough :
    (∀ st data, (raw st data).buffer = st.buffer ++ data) ∧
    (∀ ds : List ℕ, (∀ n ∈ ds, n < 256) →
       encode (raw initialState (ds.map (fun n : ℕ => jn (n : ℚ)))) = .ok (ds, initialState)) := by
  refine ⟨fun st data => rfl, fun ds h => ?_⟩
  have hb : encodeBytes (ds.map (fun n : ℕ => jn (n : ℚ))) = some ds := encodeBytes_byteList ds h
  have hbuf : (raw initialState (ds.map (fun n : ℕ => jn (n : ℚ)))).buffer
      = ds.map (fun n : ℕ => jn (n : ℚ)) := rfl
  unfold encode
  rw [hbuf, hb]

/-- C10 witness: the theorem applied to the two raw bytes the repository
test suite uses. -/
theorem c10_raw_passthrough_witness :
    encode (raw initialState ([0x1c, 0x2e].map (fun n : ℕ => jn (n : ℚ))))
      = .ok ([0x1c, 0x2e], initialState) :=
  c10_raw_passthrough.2 [0x1c, 0x2e] (by decide)

lemma distWidth_ok_iff (st : DistState) (v : JSVal) :
    (∃ st', distWidth st v = .ok st')
      ↔ (v = JSVal.undef ∨ ∃ q : ℚ, v = JSVal.num q ∧ 1 ≤ q ∧ q ≤ 6) := by
  rcases v with q | s | _ | b
  · by_cases hr : q < 1 ∨ 6 < q
    · have he : distWidth st (JSVal.num q)
          = .error ("Width must be between 1 and 6", st) := by
        simp [distWidth, hr]
      rw [he]
      constructor
      · rintro ⟨st', h⟩; cases h
      · rintro (h | ⟨q', hq', h1, h6⟩)
        · cases h
        · obtain rfl : q = q' := by injection hq'
          rcases hr with hr | hr <;> linarith
    · have ho : distWidth st (JSVal.num q)
          = .ok ⟨st.queued ++ [jn 0x1b, jn 0x69, jn (st.height - 1), jn (q - 1)],
                 q, st.height⟩ := by
        simp [distWidth, hr]
      push_neg at hr
      exact ⟨fun _ => .inr ⟨q, rfl, by linarith [hr.1], by linarith [hr.2]⟩, fun _ => ⟨_, ho⟩⟩
  · simp [distWidth]
  · have ho : distWidth st JSVal.undef
        = .ok ⟨st.queued ++ [jn 0x1b, jn 0x69, jn (st.height - 1), jn (1 - 1)],
               1, st.height⟩ := by
      have hr : ¬((1 : ℚ) < 1 ∨ 6 < (1 : ℚ)) := by norm_num
      simp [distWidth, hr]
    exact ⟨fun _ => .inl rfl, fun _ => ⟨_, ho⟩⟩
  · simp [distWidth]

lemma distHeight_ok_iff (st : DistState) (v : JSVal) :
    (∃ st', distHeight st v = .ok st')
      ↔ (v = JSVal.undef ∨ ∃ q : ℚ, v = JSVal.num q ∧ 1 ≤ q ∧ q ≤ 6) := by
  rcases v with q | s | _ | b
  · by_cases hr : q < 1 ∨ 6 < q
    · have he : distHeight st (JSVal.num q)
          = .error ("Height must be between 1 and 6", st) := by
        simp [distHeight, hr]
      rw [he]
      constructor
      · rintro ⟨st', h⟩; cases h
      · rintro (h | ⟨q', hq', h1, h6⟩)
        · cases h
        · obtain rfl : q = q' := by injection hq'
          rcases hr with hr | hr <;> linarith
    · have ho : distHeight st (JSVal.num q)
          = .ok ⟨st.queued ++ [jn 0x1b, jn 0x69, jn (q - 1), jn (st.width - 1)],
                 st.width, q⟩ := by
        simp [distHeight, hr]
      push_neg at hr
      exact ⟨fun _ => .inr ⟨q, rfl, by linarith [hr.1], by linarith [hr.2]⟩, fun _ => ⟨_, ho⟩⟩
  · simp [distHeight]
  · have ho : distHeight st JSVal.undef
        = .ok ⟨st.queued ++ [jn 0x1b, jn 0x69, jn (1 - 1), jn (st.width - 1)],
               st.width, 1⟩ := by
      have hr : ¬((1 : ℚ) < 1 ∨ 6 < (1 : ℚ)) := by norm_num
      simp [distHeight, hr]
    exact ⟨fun _ => .inl rfl, fun _ => ⟨_, ho⟩⟩
  · simp [distHeight]

lemma distWidth_num_bad (st : DistState) (q : ℚ) (hr : q < 1 ∨ 6 < q) :
    distWidth st (JSVal.num q) = .error ("Width must be between 1 and 6", st) := by
  simp [distWidth, hr]

lemma distHeight_num_bad (st : DistState) (q : ℚ) (hr : q < 1 ∨ 6 < q) :
    distHeight st (JSVal.num q) = .error ("Height must be between 1 and 6", st) := by
  simp [distHeight, hr]

/-- C2 (amended): width and height succeed exactly on an absent argument
(defaulting to 1) or a number in the closed real interval from 1 to 6;
every other argument throws, with the not-a-number and the out-of-range
messages distinguished; in particular width(0), width(7) and width(x as a
string) each throw, and likewise for height. -/
theorem c2_width_height_validation (st : DistState) (v : JSVal) :
    ((∃ st', distWidth st v = .ok st')
        ↔ (v = JSVal.undef ∨ ∃ q : ℚ, v = JSVal.num q ∧ 1 ≤ q ∧ q ≤ 6)) ∧
    ((∃ st', distHeight st v = .ok st')
        ↔ (v = JSVal.undef ∨ ∃ q : ℚ, v = JSVal.num q ∧ 1 ≤ q ∧ q ≤ 6)) ∧
    distWidth st (JSVal.num 0) = .error ("Width must be between 1 and 6", st) ∧
    distWidth st (JSVal.num 7) = .error ("Width must be between 1 and 6", st) ∧
    distWidth st (JSVal.str "x") = .error ("Width must be a number", st) ∧
    distHeight st (JSVal.num 0) = .error ("Height must be between 1 and 6", st) ∧
    distHeight st (JSVal.num 7) = .error ("Height must be between 1 and 6", st) ∧
    distHeight st (JSVal.str "x") = .error ("Height must be a number", st) := by
  refine ⟨distWidth_ok_iff st v, distHeight_ok_iff st v, ?_, ?_, ?_, ?_, ?_, ?_⟩
  · exact distWidth_num_bad st 0 (by norm_num)
  · exact distWidth_num_bad st 7 (by norm_num)
  · simp [distWidth]
  · exact distHeight_num_bad st 0 (by norm_num)
  · exact distHeight_num_bad st 7 (by norm_num)
  · simp [distHeight]

/-- C2 counterexample: the number 2.5 lies in the real interval from 1
to 6 but is not one of the integers 1 to 6, so it lies outside the
integer range the claim names, yet width(2.5) does not throw, refuting
the claimed validation condition. -/
theorem c2_width_counterexample :
    distWidth initialDistState (JSVal.num (5 / 2))
      = .ok ⟨[jn 0x1b, jn 0x69, jn 0, jn (3 / 2)], 5 / 2, 1⟩ ∧
    (5 : ℚ) / 2 ≠ 1 ∧ (5 : ℚ) / 2 ≠ 2 ∧ (5 : ℚ) / 2 ≠ 3 ∧ (5 : ℚ) / 2 ≠ 4 ∧
    (5 : ℚ) / 2 ≠ 5 ∧ (5 : ℚ) / 2 ≠ 6 ∧ 1 ≤ (5 : ℚ) / 2 ∧ (5 : ℚ) / 2 ≤ 6 := by
  refine ⟨?_, by norm_num, by norm_num, by norm_num, by norm_num, by norm_num,
          by norm_num, by norm_num, by norm_num⟩
  have hr : ¬((5 : ℚ) / 2 < 1 ∨ 6 < (5 : ℚ) / 2) := by norm_num
  simp [distWidth, initialDistState, hr]
  norm_num

/-- C3 (amended): codepage throws the unknown-codepage error exactly when
the character encoder does not recognize the name, throws the distinct
not-supported error when the printer dictionary has no entry for the
alias-resolved name, succeeds otherwise, and the name auto is not
special-cased: it is rejected as an unknown codepage. -/
theorem c3_codepage_validation (st : State) (name : String) :
    (iconvRecognized name = false →
       codepage st name = .error ("Unknown codepage", st)) ∧
    (iconvRecognized name = true →
       lookupA printerCodepages (resolveAlias name) = none →
       codepage st name = .error ("Codepage not supported by printer", st)) ∧
    (∀ id, iconvRecognized name = true →
       lookupA printerCodepages (resolveAlias name) = some id →
       codepage st name = .ok { st with
         codepage := resolveAlias name,
         buffer := st.buffer ++ [jn 0x1b, jn 0x1d, jn 0x74, jn id] }) ∧
    codepage st "auto" = .error ("Unknown codepage", st) := by
  refine ⟨?_, ?_, ?_, ?_⟩
  · intro hrec
    cases hE : encodingExists name with
    | false => simp [codepage, hE]
    | true =>
      have hO : iconvRawLookup name = none := by
        rw [iconvRecognized, hE, Bool.true_and] at hrec
        simpa using hrec
      simp [codepage, hE, hO]
  · intro hrec hpc
    rw [iconvRecognized, Bool.and_eq_true] at hrec
    rcases hO : iconvRawLookup name with _ | entry
    · rw [hO] at hrec; simp at hrec
    · rcases entry with _ | target
      · have hres : resolveAlias name = name := by simp [resolveAlias, hO]
        rw [hres] at hpc
        simp [codepage, hrec.1, hO, hpc]
      · have hres : resolveAlias name = target := by simp [resolveAlias, hO]
        rw [hres] at hpc
        simp [codepage, hrec.1, hO, hpc]
  · intro id hrec hpc
    rw [iconvRecognized, Bool.and_eq_true] at hrec
    rcases hO : iconvRawLookup name with _ | entry
    · rw [hO] at hrec; simp at hrec
    · rcases entry with _ | target
      · have hres : resolveAlias name = name := by simp [resolveAlias, hO]
        rw [hres] at hpc
        simp [codepage, hrec.1, hO, hpc, hres]
      · have hres : resolveAlias name = target := by simp [resolveAlias, hO]
        rw [hres] at hpc
        simp [codepage, hrec.1, hO, hpc, hres]
  · have ha : encodingExists "auto" = false := by decide
    simp [codepage, ha]

/-- C3 counterexample: codepage(auto) is not accepted; it throws the
unknown-codepage error, because the character encoder has no encoding of
that name and the command has no special case for it. -/
theorem c3_codepage_auto_counterexample :
    codepage initialState "auto" = .error ("Unknown codepage", initialState) := by
  have ha : encodingExists "auto" = false := by decide
  simp [codepage, ha]

/-- C3 witness: the theorem applied to the codepage utf8, which the
character encoder recognizes but the printer dictionary does not list. -/
theorem c3_codepage_validation_witness :
    codepage initialState "utf8"
      = .error ("Codepage not supported by printer", initialState) :=
  (c3_codepage_validation initialState "utf8").2.1 (by decide) (by decide)

/-- C4: for a supported codepage name (recognized by the character
encoder as a codec and present in the printer dictionary), codepage(name)
emits the select sequence 0x1b 0x1d 0x74 id and a following text(s) emits
the byte values of the codepage for s; in particular codepage(cp437) then
text(hello-with-acute-e) encodes to exactly
0x1b 0x1d 0x74 0x01 0x68 0x82 0x6c 0x6c 0x6f. -/
theorem c4_codepage_then_text (st : State) (name : String) (id : ℕ) (s : String)
    (h1 : encodingExists name = true) (h2 : iconvRawLookup name = some none)
    (h3 : lookupA printerCodepages name = some id) :
    codepage st name = .ok { st with
      codepage := name,
      buffer := st.buffer ++ [jn 0x1b, jn 0x1d, jn 0x74, jn id] } ∧
    (∀ st₁, codepage st name = .ok st₁ →
       (text st₁ s none).buffer
         = st.buffer ++ [jn 0x1b, jn 0x1d, jn 0x74, jn id,
                         Item.bytes (iconvEncode name s)]) ∧
    (∀ st₁ pre, codepage st name = .ok st₁ → encodeBytes st.buffer = some pre →
       encodeBytes (text st₁ s none).buffer
         = some (pre ++ [0x1b, 0x1d, 0x74, id % 256] ++ iconvEncode name s)) ∧
    ((codepage initialState "cp437").map
        (fun st₁ => encodeBytes (text st₁ "héllo" none).buffer)
      = .ok (some [0x1b, 0x1d, 0x74, 0x01, 0x68, 0x82, 0x6c, 0x6c, 0x6f])) := by
  have hcp : codepage st name = .ok { st with
      codepage := name,
      buffer := st.buffer ++ [jn 0x1b, jn 0x1d, jn 0x74, jn id] } := by
    simp [codepage, h1, h2, h3]
  refine ⟨hcp, ?_, ?_, ?_⟩
  · intro st₁ h
    rw [hcp] at h
    injection h with h
    subst h
    simp [text, queue, applyWrap]
  · intro st₁ pre h hpre
    rw [hcp] at h
    injection h with h
    subst h
    have hbuf : (text { st with
        codepage := name,
        buffer := st.buffer ++ [jn 0x1b, jn 0x1d, jn 0x74, jn id] } s none).buffer
        = st.buffer ++ [jn 0x1b, jn 0x1d, jn 0x74, jn ↑id,
                        Item.bytes (iconvEncode name s)] := by
      simp [text, queue, applyWrap]
    rw [hbuf, encodeBytes_append, hpre]
    have e1b : itemBytes (jn 0x1b) = some [0x1b] := by decide
    have e1d : itemBytes (jn 0x1d) = some [0x1d] := by decide
    have e74 : itemBytes (jn 0x74) = some [0x74] := by decide
    simp [encodeBytes, e1b, e1d, e74, itemBytes_jn_nat, itemBytes_iconv name s]
  · rfl

/-- C4 witness: the theorem applied to cp437 on a fresh context. -/
theorem c4_codepage_then_text_witness :
    codepage initialState "cp437"
      = .ok { initialState with
          codepage := "cp437",
          buffer := initialState.buffer ++ [jn 0x1b, jn 0x1d, jn 0x74, jn ((1 : ℕ) : ℚ)] } :=
  (c4_codepage_then_text initialState "cp437" 1 "x" (by decide) (by decide) (by decide)).1

lemma jsToUint8_div256 (n : ℕ) : jsToUint8 ((n : ℚ) / 256) = (n / 256) % 256 := by
  unfold jsToUint8 ratTrunc
  rw [if_pos (by positivity),
      show ((256 : ℚ)) = ((256 : ℕ) : ℚ) by norm_num,
      Rat.floor_natCast_div_natCast]
  omega

/-- C1 (amended): for every payload and every valid model, size and error
level, qrcode queues the data block command with the length split by the
JavaScript expressions length % 0xff and length / 0xff: the first length
byte is the byte length of the iso88591 encoding of the value modulo 255
(not 256), and the second is that length divided by 255 (not 256), the
non-integer division result being truncated only when stored as a byte in
the output. -/
theorem c1_qrcode_length_bytes (st : State) (value : String) (m s e : JSVal)
    (mb : ℕ) (q : ℚ) (eb : ℕ)
    (hm : modelByte (if m = JSVal.undef then JSVal.num 2 else m) = some mb)
    (hs : (if s = JSVal.undef then JSVal.num 6 else s) = JSVal.num q)
    (hq : ¬(q < 1 ∨ 8 < q))
    (he : elByte (if e = JSVal.undef then JSVal.str "m" else e) = some eb) :
    qrcode st value m s e = .ok { st with
      buffer := st.buffer ++ [jn 0x0a] ++ modelSel mb ++ sizeSel q ++ elSel eb
        ++ [jn 0x1b, jn 0x1d, jn 0x79, jn 0x44, jn 0x31, jn 0x00,
            jn ((qrDataLen value % 255 : ℕ) : ℚ), jn ((qrDataLen value : ℚ) / 255),
            Item.bytes (iconvEncode "iso88591" value)]
        ++ [jn 0x1b, jn 0x1d, jn 0x79, jn 0x50] } ∧
    itemBytes (jn ((qrDataLen value % 255 : ℕ) : ℚ)) = some [qrDataLen value % 255] ∧
    itemBytes (jn ((qrDataLen value : ℚ) / 255)) = some [(qrDataLen value / 255) % 256] := by
  refine ⟨?_, ?_, ?_⟩
  · simp only [qrcode, queue, hm, hs, he, if_neg hq, qrDataLen]
  · rw [itemBytes_jn_nat]
    have : (qrDataLen value % 255) % 256 = qrDataLen value % 255 := by omega
    rw [this]
  · simp [itemBytes, jn, jsToUint8_div255]

/-- C1 counterexample: at the 255-byte payload of 255 letters a, the
actually emitted length bytes are 0 and 1 (length modulo 255 and length
divided by 255), while the claimed encoding (length modulo 256, length
divided by 256 truncated on storage) would give 255 and 0. -/
theorem c1_qrcode_length_bytes_counterexample :
    qrDataLen (String.mk (List.replicate 255 'a')) = 255 ∧
    qrcode initialState (String.mk (List.replicate 255 'a'))
        JSVal.undef JSVal.undef JSVal.undef
      = .ok { initialState with
          buffer := initialState.buffer ++ [jn 0x0a] ++ modelSel 2 ++ sizeSel 6 ++ elSel 1
            ++ [jn 0x1b, jn 0x1d, jn 0x79, jn 0x44, jn 0x31, jn 0x00,
                jn ((255 % 255 : ℕ) : ℚ), jn (((255 : ℕ) : ℚ) / 255),
                Item.bytes (iconvEncode "iso88591" (String.mk (List.replicate 255 'a')))]
            ++ [jn 0x1b, jn 0x1d, jn 0x79, jn 0x50] } ∧
    jsToUint8 ((255 % 255 : ℕ) : ℚ) = 0 ∧
    jsToUint8 (((255 : ℕ) : ℚ) / 255) = 1 ∧
    (255 : ℕ) % 256 = 255 ∧
    jsToUint8 (((255 : ℕ) : ℚ) / 256) = 0 ∧
    ¬((0 : ℕ) = 255 ∧ (1 : ℕ) = 0) := by
  have hlen : (iconvEncode "iso88591" (String.mk (List.replicate 255 'a'))).length = 255 := by
    show (List.map _ (List.replicate 255 'a')).length = 255
    rw [List.length_map, List.length_replicate]
  refine ⟨by simpa [qrDataLen] using hlen, ?_, ?_, ?_, by norm_num, ?_, by norm_num⟩
  · have hm : modelByte (JSVal.num 2) = some 2 := by decide
    have h61 : ((6 : ℚ) < (1 : ℚ)) = False := by norm_num
    have h86 : ((8 : ℚ) < (6 : ℚ)) = False := by norm_num
    have he : elByte (JSVal.str "m") = some 1 := by decide
    generalize hv : String.mk (List.replicate 255 'a') = v
    rw [hv] at hlen
    simp [qrcode, queue, hm, h61, h86, he, hlen]
  · rw [show ((255 % 255 : ℕ) : ℚ) = ((0 : ℕ) : ℚ) by norm_num, jsToUint8_natCast]
  · rw [jsToUint8_div255]
  · rw [jsToUint8_div256]

/-- C1 witness: the amended theorem applied to a two-byte payload with
explicit model 1, size 8 and error level h. -/
theorem c1_qrcode_length_bytes_witness :
    qrcode initialState "ab" (JSVal.num 1) (JSVal.num 8) (JSVal.str "h")
      = .ok { initialState with
          buffer := initialState.buffer ++ [jn 0x0a] ++ modelSel 1 ++ sizeSel 8 ++ elSel 3
            ++ [jn 0x1b, jn 0x1d, jn 0x79, jn 0x44, jn 0x31, jn 0x00,
                jn ((qrDataLen "ab" % 255 : ℕ) : ℚ), jn ((qrDataLen "ab" : ℚ) / 255),
                Item.bytes (iconvEncode "iso88591" "ab")]
            ++ [jn 0x1b, jn 0x1d, jn 0x79, jn 0x50] } ∧
    itemBytes (jn ((qrDataLen "ab" % 255 : ℕ) : ℚ)) = some [qrDataLen "ab" % 255] ∧
    itemBytes (jn ((qrDataLen "ab" : ℚ) / 255)) = some [(qrDataLen "ab" / 255) % 256] :=
  c1_qrcode_length_bytes initialState "ab" (JSVal.num 1) (JSVal.num 8) (JSVal.str "h") 1 8 3
    (by decide) (by decide) (by decide) (by decide)

lemma encodeBytes_jn_cons (q : ℚ) (rest : List Item) (bs : List ℕ)
    (h : encodeBytes rest = some bs) :
    encodeBytes (jn q :: rest) = some (jsToUint8 q :: bs) := by
  simp [encodeBytes, h, itemBytes, jn]

lemma encodeBytes_modelSel (mb : ℕ) :
    encodeBytes (modelSel mb) = some [0x1b, 0x1d, 0x79, 0x53, 0x30, mb % 256] := by
  have e1 : itemBytes (jn 0x1b) = some [0x1b] := by decide
  have e2 : itemBytes (jn 0x1d) = some [0x1d] := by decide
  have e3 : itemBytes (jn 0x79) = some [0x79] := by decide
  have e4 : itemBytes (jn 0x53) = some [0x53] := by decide
  have e5 : itemBytes (jn 0x30) = some [0x30] := by decide
  simp [modelSel, encodeBytes, e1, e2, e3, e4, e5, itemBytes_jn_nat]

lemma encodeBytes_sizeSel (q : ℚ) :
    encodeBytes (sizeSel q) = some [0x1b, 0x1d, 0x79, 0x53, 0x32, jsToUint8 q] := by
  have e1 : itemBytes (jn 0x1b) = some [0x1b] := by decide
  have e2 : itemBytes (jn 0x1d) = some [0x1d] := by decide
  have e3 : itemBytes (jn 0x79) = some [0x79] := by decide
  have e4 : itemBytes (jn 0x53) = some [0x53] := by decide
  have e6 : itemBytes (jn 0x32) = some [0x32] := by decide
  have eq : itemBytes (jn q) = some [jsToUint8 q] := by simp [itemBytes, jn]
  simp [sizeSel, encodeBytes, e1, e2, e3, e4, e6, eq]

/-- C9: qrcode is not atomic on a validation failure.  An invalid model
leaves the forced-newline byte queued; an invalid size additionally
leaves the model-select command queued; an invalid error level
additionally leaves the size-select command queued; and on a fresh
context a subsequent encode after any such failure produces output
starting with the 0x0a byte. -/
theorem c9_qrcode_not_atomic (st : State) (value : String) (m s e : JSVal) :
    (modelByte (if m = JSVal.undef then JSVal.num 2 else m) = none →
       qrcode st value m s e = .error ("Model must be 1 or 2",
         { st with buffer := st.buffer ++ [jn 0x0a] })) ∧
    (∀ mb, modelByte (if m = JSVal.undef then JSVal.num 2 else m) = some mb →
       (∀ q : ℚ, (if s = JSVal.undef then JSVal.num 6 else s) ≠ JSVal.num q) →
       qrcode st value m s e = .error ("Size must be a number",
         { st with buffer := st.buffer ++ [jn 0x0a] ++ modelSel mb })) ∧
    (∀ mb (q : ℚ), modelByte (if m = JSVal.undef then JSVal.num 2 else m) = some mb →
       (if s = JSVal.undef then JSVal.num 6 else s) = JSVal.num q →
       (q < 1 ∨ 8 < q) →
       qrcode st value m s e = .error ("Size must be between 1 and 8",
         { st with buffer := st.buffer ++ [jn 0x0a] ++ modelSel mb })) ∧
    (∀ mb (q : ℚ), modelByte (if m = JSVal.undef then JSVal.num 2 else m) = some mb →
       (if s = JSVal.undef then JSVal.num 6 else s) = JSVal.num q →
       ¬(q < 1 ∨ 8 < q) →
       elByte (if e = JSVal.undef then JSVal.str "m" else e) = none →
       qrcode st value m s e = .error ("Error level must be l, m, q or h",
         { st with buffer := st.buffer ++ [jn 0x0a] ++ modelSel mb ++ sizeSel q })) ∧
    (∀ msg st', qrcode initialState value m s e = .error (msg, st') →
       ∃ tail, encodeBytes st'.buffer = some (0x0a :: tail)) := by
  have k1 : ∀ st₀ : State,
      modelByte (if m = JSVal.undef then JSVal.num 2 else m) = none →
      qrcode st₀ value m s e = .error ("Model must be 1 or 2",
        { st₀ with buffer := st₀.buffer ++ [jn 0x0a] }) := by
    intro st₀ hm
    simp only [qrcode, queue, hm]
  have k2 : ∀ (st₀ : State) mb,
      modelByte (if m = JSVal.undef then JSVal.num 2 else m) = some mb →
      (∀ q : ℚ, (if s = JSVal.undef then JSVal.num 6 else s) ≠ JSVal.num q) →
      qrcode st₀ value m s e = .error ("Size must be a number",
        { st₀ with buffer := st₀.buffer ++ [jn 0x0a] ++ modelSel mb }) := by
    intro st₀ mb hm hnq
    rcases hsv : (if s = JSVal.undef then JSVal.num 6 else s) with q | s' | _ | b
    · exact absurd hsv (hnq q)
    · simp only [qrcode, queue, hm, hsv]
    · simp only [qrcode, queue, hm, hsv]
    · simp only [qrcode, queue, hm, hsv]
  have k3 : ∀ (st₀ : State) mb (q : ℚ),
      modelByte (if m = JSVal.undef then JSVal.num 2 else m) = some mb →
      (if s = JSVal.undef then JSVal.num 6 else s) = JSVal.num q →
      (q < 1 ∨ 8 < q) →
      qrcode st₀ value m s e = .error ("Size must be between 1 and 8",
        { st₀ with buffer := st₀.buffer ++ [jn 0x0a] ++ modelSel mb }) := by
    intro st₀ mb q hm hsv hq
    simp only [qrcode, queue, hm, hsv, if_pos hq]
  have k4 : ∀ (st₀ : State) mb (q : ℚ),
      modelByte (if m = JSVal.undef then JSVal.num 2 else m) = some mb →
      (if s = JSVal.undef then JSVal.num 6 else s) = JSVal.num q →
      ¬(q < 1 ∨ 8 < q) →
      elByte (if e = JSVal.undef then JSVal.str "m" else e) = none →
      qrcode st₀ value m s e = .error ("Error level must be l, m, q or h",
        { st₀ with buffer := st₀.buffer ++ [jn 0x0a] ++ modelSel mb ++ sizeSel q }) := by
    intro st₀ mb q hm hsv hq he
    simp only [qrcode, queue, hm, hsv, if_neg hq, he]
  refine ⟨k1 st, k2 st, k3 st, k4 st, ?_⟩
  intro msg st' h
  rcases hm : modelByte (if m = JSVal.undef then JSVal.num 2 else m) with _ | mb
  · rw [k1 initialState hm] at h
    injection h with h
    injection h with h1 h2
    refine ⟨[], ?_⟩
    rw [← h2]
    decide
  · rcases hsv : (if s = JSVal.undef then JSVal.num 6 else s) with q | s' | _ | b
    case num =>
      by_cases hq : q < 1 ∨ 8 < q
      · rw [k3 initialState mb q hm hsv hq] at h
        injection h with h
        injection h with h1 h2
        refine ⟨0x1b :: 0x1d :: 0x79 :: 0x53 :: 0x30 :: mb % 256 :: [], ?_⟩
        rw [← h2]
        have hbuf : ({ initialState with
            buffer := initialState.buffer ++ [jn 0x0a] ++ modelSel mb } : State).buffer
            = jn 0x0a :: modelSel mb := by simp [initialState]
        rw [hbuf, encodeBytes_jn_cons _ _ _ (encodeBytes_modelSel mb)]
        rw [show jsToUint8 0x0a = 0x0a from by decide]
      · rcases he : elByte (if e = JSVal.undef then JSVal.str "m" else e) with _ | eb
        · rw [k4 initialState mb q hm hsv hq he] at h
          injection h with h
          injection h with h1 h2
          refine ⟨[0x1b, 0x1d, 0x79, 0x53, 0x30, mb % 256]
                  ++ [0x1b, 0x1d, 0x79, 0x53, 0x32, jsToUint8 q], ?_⟩
          rw [← h2]
          have hbuf : ({ initialState with
              buffer := initialState.buffer ++ [jn 0x0a] ++ modelSel mb ++ sizeSel q } : State).buffer
              = jn 0x0a :: (modelSel mb ++ sizeSel q) := by simp [initialState]
          have happ : encodeBytes (modelSel mb ++ sizeSel q)
              = some ([0x1b, 0x1d, 0x79, 0x53, 0x30, mb % 256]
                  ++ [0x1b, 0x1d, 0x79, 0x53, 0x32, jsToUint8 q]) := by
            rw [encodeBytes_append, encodeBytes_modelSel, encodeBytes_sizeSel]
            rfl
          rw [hbuf, encodeBytes_jn_cons _ _ _ happ]
          rw [show jsToUint8 0x0a = 0x0a from by decide]
        · exfalso
          simp only [qrcode, queue, hm, hsv, if_neg hq, he] at h
          exact Except.noConfusion h
    case str =>
      rw [k2 initialState mb hm (by simp [hsv])] at h
      injection h with h
      injection h with h1 h2
      refine ⟨0x1b :: 0x1d :: 0x79 :: 0x53 :: 0x30 :: mb % 256 :: [], ?_⟩
      rw [← h2]
      have hbuf : ({ initialState with
          buffer := initialState.buffer ++ [jn 0x0a] ++ modelSel mb } : State).buffer
          = jn 0x0a :: modelSel mb := by simp [initialState]
      rw [hbuf, encodeBytes_jn_cons _ _ _ (encodeBytes_modelSel mb)]
      rw [show jsToUint8 0x0a = 0x0a from by decide]
    case undef =>
      rw [k2 initialState mb hm (by simp [hsv])] at h
      injection h with h
      injection h with h1 h2
      refine ⟨0x1b :: 0x1d :: 0x79 :: 0x53 :: 0x30 :: mb % 256 :: [], ?_⟩
      rw [← h2]
      have hbuf : ({ initialState with
          buffer := initialState.buffer ++ [jn 0x0a] ++ modelSel mb } : State).buffer
          = jn 0x0a :: modelSel mb := by simp [initialState]
      rw [hbuf, encodeBytes_jn_cons _ _ _ (encodeBytes_modelSel mb)]
      rw [show jsToUint8 0x0a = 0x0a from by decide]
    case bool =>
      rw [k2 initialState mb hm (by simp [hsv])] at h
      injection h with h
      injection h with h1 h2
      refine ⟨0x1b :: 0x1d :: 0x79 :: 0x53 :: 0x30 :: mb % 256 :: [], ?_⟩
      rw [← h2]
      have hbuf : ({ initialState with
          buffer := initialState.buffer ++ [jn 0x0a] ++ modelSel mb } : State).buffer
          = jn 0x0a :: modelSel mb := by simp [initialState]
      rw [hbuf, encodeBytes_jn_cons _ _ _ (encodeBytes_modelSel mb)]
      rw [show jsToUint8 0x0a = 0x0a from by decide]

/-- C9 witness: the theorem applied to an invalid model argument on a
fresh context: the call throws and the forced-newline byte stays queued. -/
theorem c9_qrcode_not_atomic_witness :
    qrcode initialState "x" (JSVal.num 3) JSVal.undef JSVal.undef
      = .error ("Model must be 1 or 2",
          { initialState with buffer := initialState.buffer ++ [jn 0x0a] }) :=
  (c9_qrcode_not_atomic initialState "x" (JSVal.num 3) JSVal.undef JSVal.undef).1
    (by decide)

end StarPrnt
